import Mathlib

/-
Shallow embedding of the svg2pdf core (src/render/gradient.rs, src/render/path.rs,
src/write/path.rs, src/write/group.rs) for checking the natural-language
specification against the code.

Floating-point values (f32/f64) are embedded as rationals (ℚ); the `as f32`
narrowing casts are embedded as the identity, since none of the verified
properties depend on rounding.  PDF writer builders are collapsed into plain
records: "writing an object" becomes appending a (reference, object) pair to an
`emitted` list carried in the explicit context state.
-/

namespace Svg2pdf

/-! ## Affine transforms (tiny-skia / usvg `Transform`)

Field layout follows tiny-skia: a point (x, y) maps to
(sx*x + kx*y + tx, ky*x + sy*y + ty). -/

structure Transform where
  sx : ℚ
  ky : ℚ
  kx : ℚ
  sy : ℚ
  tx : ℚ
  ty : ℚ
deriving DecidableEq, Repr

/-- the identity transform (`Transform::default()`) -/
def Transform.default : Transform := ⟨1, 0, 0, 1, 0, 0⟩

/-- tiny-skia `Transform::concat(a, b)`: the product a·b, applying `b` to points
first and `a` second.  Old usvg's `Transform::multiply` (used by `append`) is the
same matrix product. -/
def Transform.concat (a b : Transform) : Transform where
  sx := a.sx * b.sx + a.kx * b.ky
  ky := a.ky * b.sx + a.sy * b.ky
  kx := a.sx * b.kx + a.kx * b.sy
  sy := a.ky * b.kx + a.sy * b.sy
  tx := a.sx * b.tx + a.kx * b.ty + a.tx
  ty := a.ky * b.tx + a.sy * b.ty + a.ty

/-- tiny-skia `Transform::pre_concat(self, other)` = `concat(self, other)`. -/
def Transform.pre_concat (a b : Transform) : Transform := Transform.concat a b

/-- old usvg `Transform::append(self, other)`: self becomes self·other, i.e. the
same product as `pre_concat`. -/
def Transform.append (a b : Transform) : Transform := Transform.concat a b

structure Point where
  x : ℚ
  y : ℚ
deriving DecidableEq, Repr

/-- application of a transform to a point. -/
def Transform.mapPoint (t : Transform) (p : Point) : Point :=
  ⟨t.sx * p.x + t.kx * p.y + t.tx, t.ky * p.x + t.sy * p.y + t.ty⟩

/-- usvg `NonZeroRect` (the non-zero-size side conditions are irrelevant to the
verified properties and omitted). -/
structure NonZeroRect where
  x : ℚ
  y : ℚ
  w : ℚ
  h : ℚ
deriving DecidableEq, Repr

/-- usvg `Transform::from_bbox(bbox)` =
`from_row(bbox.width(), 0, 0, bbox.height(), bbox.x(), bbox.y())`:
maps the unit square onto the bounding box. -/
def Transform.from_bbox (r : NonZeroRect) : Transform :=
  ⟨r.w, 0, 0, r.h, r.x, r.y⟩

/-- a PDF `Rect` as produced for bounding boxes. -/
structure PdfRect where
  x1 : ℚ
  y1 : ℚ
  x2 : ℚ
  y2 : ℚ
deriving DecidableEq, Repr

/-- Modelled from the spec: `RectExt::as_pdf_rect(&Transform::default())` from
util/helper.rs (not in src/) — under the identity transform the tile rectangle
maps to the PDF rectangle with the same corners ("compute the tile's bounding
box", §4.5). -/
def asPdfRect (r : NonZeroRect) : PdfRect :=
  ⟨r.x, r.y, r.x + r.w, r.y + r.h⟩

/-! ## Gradient stops -/

/-- usvg `Color` (8-bit sRGB channels). -/
structure Color where
  r : ℕ
  g : ℕ
  b : ℕ
deriving DecidableEq, Repr

/-- usvg `Stop`: offset and opacity are `NormalizedF32` values in [0,1]. -/
structure UStop where
  offset : ℚ
  color : Color
  opacity : ℚ
deriving DecidableEq, Repr

/-- render/gradient.rs `Stop<const COUNT: usize>`: a stop projected to `n`
interpolation channels. -/
structure Stop (n : ℕ) where
  color : Fin n → ℚ
  offset : ℚ

instance (n : ℕ) : DecidableEq (Stop n) := fun a b =>
  decidable_of_iff (a.color = b.color ∧ a.offset = b.offset)
    (by cases a; cases b; simp)

/-- Modelled from the spec: `StopExt::opacity_stops` from util/helper.rs (not in
src/) — project a stop to its 1-channel opacity value (§3 "Stop<N>", N=1). -/
def UStop.opacity_stops (s : UStop) : Stop 1 :=
  ⟨![s.opacity], s.offset⟩

/-- Modelled from the spec: `StopExt::color_stops` from util/helper.rs (not in
src/) — project a stop to its 3 color channels, normalized to [0,1] (§3
"Stop<N>", N=3; §4.4 "colors ... are pre-normalized"). -/
def UStop.color_stops (s : UStop) : Stop 3 :=
  ⟨![(s.color.r : ℚ) / 255, (s.color.g : ℚ) / 255, (s.color.b : ℚ) / 255], s.offset⟩

/-! ## Enumerations from pdf_writer / usvg -/

/-- pdf_writer `ShadingType`, restricted to the variants the code uses. -/
inductive ShadingKind where
  | axial
  | radial
deriving DecidableEq, Repr

/-- usvg `Units`. -/
inductive Units where
  | userSpaceOnUse
  | objectBoundingBox
deriving DecidableEq, Repr

/-- the color space selected on a shading or content stream. -/
inductive ColorSpaceSel where
  | srgb
  | d65Gray
  | deviceRgb
  | patternCs
deriving DecidableEq, Repr

inductive LineCap where
  | butt
  | round
  | square
deriving DecidableEq, Repr

inductive LineJoin where
  | miter
  | round
  | bevel
deriving DecidableEq, Repr

inductive FillRule where
  | nonzero
  | evenodd
deriving DecidableEq, Repr

/-! ## Content-stream operators (pdf_writer `Content` methods) -/

inductive ContentOp where
  | saveState
  | restoreState
  | transformOp (t : Transform)
  | setFillColorSpace (cs : ColorSpaceSel)
  | setStrokeColorSpace (cs : ColorSpaceSel)
  | setParameters (name : ℕ)
  | setLineWidth (w : ℚ)
  | setMiterLimit (m : ℚ)
  | setLineCap (c : LineCap)
  | setLineJoin (j : LineJoin)
  | setDashPattern (arr : List ℚ) (off : ℚ)
  | setStrokeColor (c : List ℚ)
  | setFillColor (c : List ℚ)
  | setFillPattern (name : ℕ)
  | moveTo (x y : ℚ)
  | lineTo (x y : ℚ)
  | cubicTo (x1 y1 x2 y2 x y : ℚ)
  | closePath
  | fillNonzeroAndStroke
  | fillEvenOddAndStroke
  | fillNonzero
  | fillEvenOdd
  | strokePaint
  | endPath
  | xObjectOp (name : ℕ)
  | shadingOp (name : ℕ)
deriving DecidableEq, Repr

/-! ## Resource scopes ("Deferrer")

The Deferrer lives in util/context.rs, which is not in src/.  It is modelled
from the spec (§4.2 Resource Scope Allocator): a stack of scopes of
name→reference registrations; `push` opens a new innermost scope, `add_*`
registers a reference under a freshly minted name in the innermost scope,
`pop` writes every registration of the innermost scope into the supplied
resource dictionary and discards the scope.  Names are modelled as the values
of a monotonic minting counter, which makes them unique by construction. -/

inductive ResKind where
  | pattern
  | shading
  | graphicsState
  | xObject
deriving DecidableEq, Repr

/-- one name→reference registration inside a scope. -/
structure ResEntry where
  kind : ResKind
  name : ℕ
  ref : ℕ
deriving DecidableEq, Repr

/-- Modelled from the spec: the Deferrer (util/context.rs, not in src/).
`scopes` is innermost-first; the spec guarantees a base scope exists for the
allocator's lifetime. -/
structure Deferrer where
  scopes : List (List ResEntry)
  nextName : ℕ
deriving DecidableEq, Repr

/-- Modelled from the spec: `Deferrer::push` opens a new innermost scope. -/
def Deferrer.push (d : Deferrer) : Deferrer :=
  { d with scopes := [] :: d.scopes }

/-- Modelled from the spec: `Deferrer::add_*` registers `ref` under a freshly
minted name in the innermost scope and returns that name. -/
def Deferrer.add (d : Deferrer) (k : ResKind) (r : ℕ) : ℕ × Deferrer :=
  (d.nextName,
    { scopes := d.scopes.modifyHead (fun s => s ++ [⟨k, d.nextName, r⟩])
      nextName := d.nextName + 1 })

/-- Modelled from the spec: `Deferrer::pop(into)` writes every registration of
the innermost scope into the supplied resource dictionary (returned here as the
first component) and discards the scope. -/
def Deferrer.pop (d : Deferrer) : List ResEntry × Deferrer :=
  (d.scopes.headD [], { d with scopes := d.scopes.tail })

/-! ## Context frame (transform stack)

The ContextFrame lives in util/context.rs, which is not in src/.  Modelled from
the spec (§4.1 Transform Frame). -/

/-- Modelled from the spec: the Transform Frame — a current transform plus a
stack of saved transforms. -/
structure ContextFrame where
  current : Transform
  saved : List Transform
deriving DecidableEq, Repr

/-- Modelled from the spec: `push()` saves the current transform. -/
def ContextFrame.push (f : ContextFrame) : ContextFrame :=
  { f with saved := f.current :: f.saved }

/-- Modelled from the spec: `pop()` restores the last saved transform. -/
def ContextFrame.pop (f : ContextFrame) : ContextFrame :=
  { current := f.saved.headD Transform.default, saved := f.saved.tail }

/-- Modelled from the spec: `append_transform(t)` right-multiplies the current
transform by `t`. -/
def ContextFrame.append_transform (f : ContextFrame) (t : Transform) : ContextFrame :=
  { f with current := f.current.append t }

/-- Modelled from the spec: `set_transform(t)` replaces the current transform. -/
def ContextFrame.set_transform (f : ContextFrame) (t : Transform) : ContextFrame :=
  { f with current := t }

/-! ## Emitted PDF objects

The pdf_writer builder calls are collapsed into records; "writing" an object
appends a (reference, object) pair to the context's `emitted` list. -/

/-- the fields the code sets on a shading dictionary. -/
structure ShadingDict where
  shadingType : ShadingKind
  colorSpace : ColorSpaceSel
  functionRef : ℕ
  coords : List ℚ
  extend : List Bool
deriving DecidableEq, Repr

inductive PdfObject where
  /-- an exponential interpolation function dictionary. -/
  | exponentialFn (range : List ℚ) (c0 c1 : List ℚ) (domain : List ℚ) (n : ℚ)
  /-- a stitching function dictionary. -/
  | stitchingFn (domain range : List ℚ) (functions : List ℕ) (bounds encode : List ℚ)
  /-- a shading pattern carrying a shading dictionary and a placement matrix. -/
  | shadingPattern (sh : ShadingDict) (matrix : Transform)
  /-- a standalone shading dictionary (used by the soft mask). -/
  | shadingObj (sh : ShadingDict)
  /-- a form XObject: content stream, resource dictionary written by
  `Deferrer::pop`, transparency-group flag, bounding box. -/
  | formXObject (content : List ContentOp) (resources : List ResEntry)
      (transparencyGroup : Bool) (bbox : PdfRect)
  /-- an extended graphics state carrying a luminosity soft mask group. -/
  | extGStateSoftMask (group : ℕ)
  /-- a tiling pattern: content stream, resource dictionary, bbox, placement
  matrix and step sizes. -/
  | tilingPattern (content : List ContentOp) (resources : List ResEntry)
      (bbox : PdfRect) (matrix : Transform) (xStep yStep : ℚ)
deriving DecidableEq, Repr

/-! ## The explicit rendering context

Bundles the reference allocator, the Deferrer, the ContextFrame, the drawing
rectangle (`ctx.get_rect()`, modelled from the spec as a fixed context datum)
and the list of objects written so far. -/

structure Context where
  nextRef : ℕ
  deferrer : Deferrer
  frame : ContextFrame
  rect : PdfRect
  emitted : List (ℕ × PdfObject)
deriving DecidableEq, Repr

/-- `ctx.alloc_ref()`: a fresh, never-reused document-wide reference. -/
def Context.allocRef (c : Context) : ℕ × Context :=
  (c.nextRef, { c with nextRef := c.nextRef + 1 })

/-- write one object. -/
def Context.emit (c : Context) (r : ℕ) (o : PdfObject) : Context :=
  { c with emitted := c.emitted ++ [(r, o)] }

/-- `ctx.deferrer.add_shading(ref)`. -/
def Context.addShading (c : Context) (r : ℕ) : ℕ × Context :=
  let (name, d) := c.deferrer.add ResKind.shading r
  (name, { c with deferrer := d })

/-- `ctx.deferrer.add_pattern(ref)` (render/gradient.rs form, taking a ref). -/
def Context.addPattern (c : Context) (r : ℕ) : ℕ × Context :=
  let (name, d) := c.deferrer.add ResKind.pattern r
  (name, { c with deferrer := d })

/-- `ctx.deferrer.add_graphics_state(ref)`. -/
def Context.addGraphicsState (c : Context) (r : ℕ) : ℕ × Context :=
  let (name, d) := c.deferrer.add ResKind.graphicsState r
  (name, { c with deferrer := d })

/-- Modelled from the spec: render/path.rs `ctx.deferrer.add_pattern()` (no-ref
form, util code not in src/) — allocates a fresh reference and registers it in
the innermost scope, returning (name, reference). -/
def Context.addPatternAlloc (c : Context) : (ℕ × ℕ) × Context :=
  let (r, c1) := c.allocRef
  let (name, d) := c1.deferrer.add ResKind.pattern r
  ((name, r), { c1 with deferrer := d })

/-- Modelled from the spec: `ctx.deferrer.add_opacity(stroke, fill)` (util code
not in src/) — registers "a combined opacity graphics-state resource" (§4.6)
under a fresh name. -/
def Context.addOpacity (c : Context) (_strokeOpacity _fillOpacity : Option ℚ) : ℕ × Context :=
  let (r, c1) := c.allocRef
  let (name, d) := c1.deferrer.add ResKind.graphicsState r
  (name, { c1 with deferrer := d })

/-- `ctx.deferrer.push()`. -/
def Context.pushScope (c : Context) : Context :=
  { c with deferrer := c.deferrer.push }

/-- `ctx.deferrer.pop(&mut resources)`: the returned list is the resource
dictionary written. -/
def Context.popScope (c : Context) : List ResEntry × Context :=
  let (dict, d) := c.deferrer.pop
  (dict, { c with deferrer := d })

/-! ## render/gradient.rs -/

/-- render/gradient.rs `GradientProperties`. -/
structure GradientProperties where
  coords : List ℚ
  shadingType : ShadingKind
  stops : List UStop
  transform : Transform
  units : Units
deriving DecidableEq, Repr

/-- render/gradient.rs `get_function_range(count)` = `[0.0, 1.0].repeat(count)`. -/
def get_function_range (count : ℕ) : List ℚ :=
  (List.replicate count ([0, 1] : List ℚ)).flatten

/-- render/gradient.rs stop padding (the first half of `get_function`, lines
211–228): if the first stop's offset is not exactly 0, prepend a duplicate with
offset forced to 0; if the last stop's offset (after the prepend) is not exactly
1, append a duplicate with offset forced to 1. -/
def padStops (stops : List UStop) : List UStop :=
  let stops1 :=
    match stops.head? with
    | some first => if first.offset ≠ 0 then { first with offset := 0 } :: stops else stops
    | none => stops
  match stops1.getLast? with
  | some last => if last.offset ≠ 1 then stops1 ++ [{ last with offset := 1 }] else stops1
  | none => stops1

/-- render/gradient.rs `exponential_function`: allocate a reference and write an
exponential interpolation dictionary for two adjacent stops. -/
def exponential_function {n : ℕ} (first_stop second_stop : Stop n) (c : Context) :
    ℕ × Context :=
  let (reference, c1) := c.allocRef
  (reference,
    c1.emit reference
      (PdfObject.exponentialFn (get_function_range n) (List.ofFn first_stop.color)
        (List.ofFn second_stop.color) [0, 1] 1))

/-- the `for window in stops.windows(2)` loop body of `stitching_function`:
collect sub-function references, raw bounds (each window's second offset) and
encode entries, writing one exponential function per window. -/
def stitchWindows {n : ℕ} : List (Stop n × Stop n) → Context →
    List ℕ × List ℚ × List ℚ × Context
  | [], c => ([], [], [], c)
  | w :: ws, c =>
    let (r, c1) := exponential_function w.1 w.2 c
    let (fns, bnds, enc, c2) := stitchWindows ws c1
    (r :: fns, w.2.offset :: bnds, ([0, 1] : List ℚ) ++ enc, c2)

/-- render/gradient.rs `stitching_function`: allocate the stitching reference
first, build one exponential sub-function per adjacent stop pair, drop the last
raw bound (`bounds.pop()`), and write the stitching dictionary.  The Rust
`assert!(!stops.is_empty())` is a panic on empty input; the claims only concern
sequences of length ≥ 2, where the assertion holds. -/
def stitching_function {n : ℕ} (stops : List (Stop n)) (c : Context) : ℕ × Context :=
  let (reference, c1) := c.allocRef
  let (functions, boundsAll, encode, c2) := stitchWindows (stops.zip stops.tail) c1
  let bounds := boundsAll.dropLast
  (reference,
    c2.emit reference
      (PdfObject.stitchingFn [0, 1] (get_function_range n) functions bounds encode))

/-- render/gradient.rs `function`: two stops give a single exponential
function, otherwise a stitching function. -/
def function {n : ℕ} (stops : List (Stop n)) (c : Context) : ℕ × Context :=
  match stops with
  | [a, b] => exponential_function a b c
  | _ => stitching_function stops c

/-- render/gradient.rs `get_function`: pad the stops, project them to 1-channel
opacity stops or 3-channel color stops, and build the interpolation function. -/
def get_function (stops : List UStop) (c : Context) (use_opacities : Bool) :
    ℕ × Context :=
  let stops := padStops stops
  if use_opacities then
    function (stops.map UStop.opacity_stops) c
  else
    function (stops.map UStop.color_stops) c

/-- render/gradient.rs `get_soft_mask`: push a resource scope, write a
grayscale (luminosity) shading for the 1-channel opacity projection, wrap it in
a transparency-group form XObject whose resource dictionary receives the popped
scope, and register a graphics state carrying the luminosity soft mask.
`ctx.finish_content` only applies the effect-only compression option (§6) and is
embedded as the identity on the operator list. -/
def get_soft_mask (properties : GradientProperties) (parent_bbox : NonZeroRect)
    (c : Context) : ℕ × Context :=
  let c := c.pushScope
  let (x_object_id, c) := c.allocRef
  let (shading_ref, c) := c.allocRef
  let (shading_name, c) := c.addShading shading_ref
  let bbox := c.rect
  let transform := properties.transform.pre_concat
    (if properties.units = Units.objectBoundingBox then
      Transform.from_bbox parent_bbox
    else
      Transform.default)
  let (shading_function_ref, c) := get_function properties.stops c true
  let c := c.emit shading_ref
    (PdfObject.shadingObj
      ⟨properties.shadingType, ColorSpaceSel.d65Gray, shading_function_ref,
        properties.coords, [true, true]⟩)
  let content : List ContentOp :=
    [ContentOp.transformOp transform, ContentOp.shadingOp shading_name]
  let (resources, c) := c.popScope
  let c := c.emit x_object_id (PdfObject.formXObject content resources true bbox)
  let (gs_ref, c) := c.allocRef
  let c := c.emit gs_ref (PdfObject.extGStateSoftMask x_object_id)
  c.addGraphicsState gs_ref

/-- render/gradient.rs `create_shading_pattern`: allocate the pattern
reference, build the soft mask when any stop's opacity is below 1, compute the
placement matrix `accumulated.pre_concat(bbox-or-identity).pre_concat(local)`,
build the sRGB color interpolation function, write the shading pattern and
register it. -/
def create_shading_pattern (properties : GradientProperties)
    (parent_bbox : NonZeroRect) (accumulated_transform : Transform) (c : Context) :
    (ℕ × Option ℕ) × Context :=
  let (pattern_ref, c) := c.allocRef
  let (soft_mask, c) :=
    if properties.stops.any (fun stop => decide (stop.opacity < 1)) then
      let (m, c) := get_soft_mask properties parent_bbox c
      (some m, c)
    else
      (none, c)
  let matrix := (accumulated_transform.pre_concat
    (if properties.units = Units.objectBoundingBox then
      Transform.from_bbox parent_bbox
    else
      Transform.default)).pre_concat properties.transform
  let (shading_function_ref, c) := get_function properties.stops c false
  let c := c.emit pattern_ref
    (PdfObject.shadingPattern
      ⟨properties.shadingType, ColorSpaceSel.srgb, shading_function_ref,
        properties.coords, [true, true]⟩
      matrix)
  let (name, c) := c.addPattern pattern_ref
  ((name, soft_mask), c)

/-! ## Closed forms for the stitching loop's output (used to state the
function-builder properties) -/

/-- the exponential-function object written for one adjacent stop pair:
C0 = the first stop's channels, C1 = the second stop's channels, domain [0,1],
exponent N = 1. -/
def expObj {n : ℕ} (w : Stop n × Stop n) : PdfObject :=
  PdfObject.exponentialFn (get_function_range n) (List.ofFn w.1.color)
    (List.ofFn w.2.color) [0, 1] 1

/-- the (reference, object) pairs written by the stitching loop when its
reference allocator starts at `base`. -/
def expEmits {n : ℕ} (base : ℕ) : List (Stop n × Stop n) → List (ℕ × PdfObject)
  | [] => []
  | w :: ws => (base, expObj w) :: expEmits (base + 1) ws

/-- `len` consecutive references starting at `base`. -/
def refSeq (base len : ℕ) : List ℕ :=
  (List.range len).map (fun i => base + i)

/-! ## Scene-graph path data (usvg) -/

/-- usvg `PathSegment`. -/
inductive PathSegment where
  | moveTo (x y : ℚ)
  | lineTo (x y : ℚ)
  | curveTo (x1 y1 x2 y2 x y : ℚ)
  | closePath
deriving DecidableEq, Repr

/-- the root node kind of a pattern definition (only the group/non-group
distinction matters to the embedded code). -/
inductive PNodeKind where
  | group
  | other
deriving DecidableEq, Repr

/-- usvg `Pattern`.  `view_box_transform` stands for
`view_box_to_transform(viewbox.rect, viewbox.aspect, pattern.rect.size())`,
a usvg library utility external to the core: the embedding carries its result
(`none` when the pattern declares no view box). -/
structure UPattern where
  root : PNodeKind
  transform : Transform
  view_box_transform : Option Transform
  rect : NonZeroRect
deriving DecidableEq, Repr

/-- usvg `Paint`.  The gradient payloads are elided: the gradient-compiler
claims are stated directly over `GradientProperties`, and the embedded
path-renderer fragments never read them. -/
inductive UPaint where
  | color (c : Color)
  | linearGradient
  | radialGradient
  | pattern (p : UPattern)
deriving DecidableEq, Repr

/-- usvg `Stroke` (the fields the embedded code reads). -/
structure UStroke where
  paint : UPaint
  width : ℚ
  miterlimit : ℚ
  linecap : LineCap
  linejoin : LineJoin
  dasharray : Option (List ℚ)
  dashoffset : ℚ
  opacity : ℚ
deriving DecidableEq, Repr

/-- usvg `Fill` (the fields the embedded code reads). -/
structure UFill where
  paint : UPaint
  rule : FillRule
  opacity : ℚ
deriving DecidableEq, Repr

/-- usvg `Path` (the fields the embedded code reads); `visible` embeds
`visibility == Visibility::Visible`. -/
structure UPath where
  visible : Bool
  transform : Transform
  stroke : Option UStroke
  fill : Option UFill
  data : List PathSegment
deriving DecidableEq, Repr

/-- Modelled from the spec: `ColorExt::as_array` / `RgbColor::to_array` from
util (not in src/) — a named color converted to a normalized 3-channel array
("color-space conversion primitives ... small utility collaborators", §1). -/
def colorToArray (c : Color) : List ℚ :=
  [(c.r : ℚ) / 255, (c.g : ℚ) / 255, (c.b : ℚ) / 255]

/-! ## render/path.rs

Functions that can hit a `todo!()` / `unreachable!()` panic return `Option`:
`none` embeds the panic (the explicit unsupported-operation signal), `some`
embeds normal completion with the list of emitted operators. -/

namespace Render

/-- render/path.rs `draw_path`: map each path segment to its geometry
operator, in order. -/
def draw_path (path_data : List PathSegment) : List ContentOp :=
  path_data.map fun operation =>
    match operation with
    | PathSegment.moveTo x y => ContentOp.moveTo x y
    | PathSegment.lineTo x y => ContentOp.lineTo x y
    | PathSegment.curveTo x1 y1 x2 y2 x y => ContentOp.cubicTo x1 y1 x2 y2 x y
    | PathSegment.closePath => ContentOp.closePath

/-- render/path.rs `finish_path`: the terminal painting operator chosen from
{stroke present?} × {fill rule if fill present}. -/
def finish_path (stroke : Option UStroke) (fill : Option UFill) : List ContentOp :=
  match stroke, fill.map (fun f => f.rule) with
  | some _, some FillRule.nonzero => [ContentOp.fillNonzeroAndStroke]
  | some _, some FillRule.evenodd => [ContentOp.fillEvenOddAndStroke]
  | none, some FillRule.nonzero => [ContentOp.fillNonzero]
  | none, some FillRule.evenodd => [ContentOp.fillEvenOdd]
  | some _, none => [ContentOp.strokePaint]
  | none, none => [ContentOp.endPath]

/-- render/path.rs `set_stroke`: stroke style operators, then the stroke paint:
a solid color sets the stroke color, a pattern paint hits `todo!()` (`none`),
and any other paint (the gradients) falls into `_ => {}` and is silently
dropped. -/
def set_stroke (stroke : UStroke) : Option (List ContentOp) :=
  let ops : List ContentOp :=
    [ContentOp.setLineWidth stroke.width, ContentOp.setMiterLimit stroke.miterlimit,
      ContentOp.setLineCap stroke.linecap, ContentOp.setLineJoin stroke.linejoin] ++
    (match stroke.dasharray with
      | some dasharray => [ContentOp.setDashPattern dasharray stroke.dashoffset]
      | none => [])
  match stroke.paint with
  | UPaint.color cl => some (ops ++ [ContentOp.setStrokeColor (colorToArray cl)])
  | UPaint.pattern _ => none
  | _ => some ops

/-- render/path.rs `create_pattern`, lines 146–151: save the frame and replace
the current transform by an independent coordinate system — the identity,
optionally pre-composed with the view-box fit — before rendering the tile's
content. -/
def create_pattern_inner (pattern : UPattern) (c : Context) : Context :=
  let c := { c with frame := c.frame.push }
  let c := { c with frame := c.frame.set_transform Transform.default }
  match pattern.view_box_transform with
  | some vt => { c with frame := c.frame.append_transform vt }
  | none => c

/-- render/path.rs `create_pattern`: register a pattern (minting its name and
reference), push a resource scope, capture the parent placement matrix
(current frame transform composed with the pattern's declared transform), reset
the frame to an independent coordinate system (`create_pattern_inner`), render
the pattern's root group through `create_x_object` (render/group.rs, not in
src/ — passed as the `renderChild` argument), pop the scope into the tiling
pattern's resource dictionary, and write the tiling pattern with bbox-derived
steps.  A non-group root is `unreachable!()` (`none`). -/
def create_pattern (pattern : UPattern) (renderChild : Context → ℕ × Context)
    (c : Context) : Option (ℕ × Context) :=
  let ((pattern_name, pattern_id), c) := c.addPatternAlloc
  let c := c.pushScope
  match pattern.root with
  | PNodeKind.group =>
    let parent_transform := c.frame.current.append pattern.transform
    let c := create_pattern_inner pattern c
    let (x_object_name, c) := renderChild c
    let pattern_content : List ContentOp := [ContentOp.xObjectOp x_object_name]
    let (resources, c) := c.popScope
    let final_bbox := asPdfRect pattern.rect
    let c := c.emit pattern_id
      (PdfObject.tilingPattern pattern_content resources final_bbox parent_transform
        (final_bbox.x2 - final_bbox.x1) (final_bbox.y2 - final_bbox.y1))
    let c := { c with frame := c.frame.pop }
    some (pattern_name, c)
  | PNodeKind.other => none

/-- render/path.rs `set_fill`: a solid color sets the fill color, a pattern
paint compiles a tiling pattern and selects the Pattern color space, any other
paint (the gradients) falls into `_ => {}`. -/
def set_fill (fill : UFill) (renderChild : Context → ℕ × Context) (c : Context) :
    Option (List ContentOp × Context) :=
  match fill.paint with
  | UPaint.color cl => some ([ContentOp.setFillColor (colorToArray cl)], c)
  | UPaint.pattern p =>
    match create_pattern p renderChild c with
    | some (pattern_name, c) =>
      some ([ContentOp.setFillColorSpace ColorSpaceSel.patternCs,
        ContentOp.setFillPattern pattern_name], c)
    | none => none
  | _ => some ([], c)

/-- render/path.rs `render` (for `usvg::Path`): an invisible path emits
nothing; otherwise push the frame, append the path transform, and emit
save-state, the effective transform, sRGB fill/stroke color-space selection,
the optional combined-opacity graphics state, stroke style and paint, fill
paint, the geometry, the terminal painting operator and restore-state. -/
def render (path : UPath) (renderChild : Context → ℕ × Context) (c : Context) :
    Option (List ContentOp × Context) :=
  if path.visible = false then
    some ([], c)
  else
    let c := { c with frame := c.frame.push }
    let c := { c with frame := c.frame.append_transform path.transform }
    let ops1 : List ContentOp :=
      [ContentOp.saveState, ContentOp.transformOp c.frame.current,
        ContentOp.setFillColorSpace ColorSpaceSel.srgb,
        ContentOp.setStrokeColorSpace ColorSpaceSel.srgb]
    let stroke_opacity := path.stroke.map (fun s => s.opacity)
    let fill_opacity := path.fill.map (fun f => f.opacity)
    let (ops2, c) :=
      if stroke_opacity.getD 1 ≠ 1 ∨ fill_opacity.getD 1 ≠ 1 then
        let (name, c) := c.addOpacity stroke_opacity fill_opacity
        ([ContentOp.setParameters name], c)
      else
        ([], c)
    match (match path.stroke with
            | some stroke => set_stroke stroke
            | none => some []) with
    | none => none
    | some strokeOps =>
      match (match path.fill with
              | some fill => set_fill fill renderChild c
              | none => some ([], c)) with
      | none => none
      | some (fillOps, c) =>
        let geometry := draw_path path.data
        let terminal := finish_path path.stroke path.fill
        let c := { c with frame := c.frame.pop }
        some (ops1 ++ ops2 ++ strokeOps ++ fillOps ++ geometry ++ terminal ++
          [ContentOp.restoreState], c)

end Render

/-! ## write/path.rs (the historical second code path) -/

namespace WritePath

/-- write/path.rs `draw_path`. -/
def draw_path (path_data : List PathSegment) : List ContentOp :=
  path_data.map fun operation =>
    match operation with
    | PathSegment.moveTo x y => ContentOp.moveTo x y
    | PathSegment.lineTo x y => ContentOp.lineTo x y
    | PathSegment.curveTo x1 y1 x2 y2 x y => ContentOp.cubicTo x1 y1 x2 y2 x y
    | PathSegment.closePath => ContentOp.closePath

/-- write/path.rs `finish_path` (the last two arms are written `(Some(_), _)`
and `(None, _)` in this file). -/
def finish_path (stroke : Option UStroke) (fill : Option UFill) : List ContentOp :=
  match stroke, fill.map (fun f => f.rule) with
  | some _, some FillRule.nonzero => [ContentOp.fillNonzeroAndStroke]
  | some _, some FillRule.evenodd => [ContentOp.fillEvenOddAndStroke]
  | none, some FillRule.nonzero => [ContentOp.fillNonzero]
  | none, some FillRule.evenodd => [ContentOp.fillEvenOdd]
  | some _, _ => [ContentOp.strokePaint]
  | none, _ => [ContentOp.endPath]

/-- write/path.rs `set_stroke`: stroke style operators, then the stroke paint —
a solid color sets the stroke color and every other paint hits `todo!()`
(`none`). -/
def set_stroke (stroke : UStroke) : Option (List ContentOp) :=
  let ops : List ContentOp :=
    [ContentOp.setLineWidth stroke.width, ContentOp.setMiterLimit stroke.miterlimit,
      ContentOp.setLineCap stroke.linecap, ContentOp.setLineJoin stroke.linejoin] ++
    (match stroke.dasharray with
      | some dasharray => [ContentOp.setDashPattern dasharray stroke.dashoffset]
      | none => [])
  match stroke.paint with
  | UPaint.color cl => some (ops ++ [ContentOp.setStrokeColor (colorToArray cl)])
  | _ => none

/-- write/path.rs `set_fill`: a solid color sets the fill color, everything
else falls into `_ => {}`. -/
def set_fill (fill : UFill) : List ContentOp :=
  match fill.paint with
  | UPaint.color cl => [ContentOp.setFillColor (colorToArray cl)]
  | _ => []

/-- write/path.rs `render` (for `usvg::Path`): an invisible path emits
nothing; otherwise save-state, the path's own transform, DeviceRGB fill/stroke
color-space selection (the file carries a `TODO: Change to SRGB`), stroke, fill,
geometry, terminal operator, restore-state. -/
def render (path : UPath) : Option (List ContentOp) :=
  if path.visible = false then
    some []
  else
    match (match path.stroke with
            | some stroke => set_stroke stroke
            | none => some []) with
    | none => none
    | some strokeOps =>
      let fillOps :=
        match path.fill with
        | some fill => set_fill fill
        | none => []
      some ([ContentOp.saveState, ContentOp.transformOp path.transform,
        ContentOp.setFillColorSpace ColorSpaceSel.deviceRgb,
        ContentOp.setStrokeColorSpace ColorSpaceSel.deviceRgb] ++
        strokeOps ++ fillOps ++ draw_path path.data ++
        finish_path path.stroke path.fill ++ [ContentOp.restoreState])

end WritePath

/-! ## Helper lemmas -/

theorem Transform.concat_assoc (a b c : Transform) :
    (a.concat b).concat c = a.concat (b.concat c) := by
  simp only [Transform.concat, Transform.mk.injEq]
  refine ⟨by ring, by ring, by ring, by ring, by ring, by ring⟩

theorem Transform.concat_mapPoint (a b : Transform) (p : Point) :
    (a.concat b).mapPoint p = a.mapPoint (b.mapPoint p) := by
  simp only [Transform.concat, Transform.mapPoint, Point.mk.injEq]
  exact ⟨by ring, by ring⟩

/-! ## Claims -/

/-- C1: the placement matrix written by `create_shading_pattern` equals
`accumulated ∘ bbox-normalization ∘ gradient-local-transform` (the local
transform applied first to points, the accumulated transform outermost), the
bounding-box factor being `Transform.from_bbox` for object-bounding-box
gradients and the identity for user-space gradients. -/
theorem shading_pattern_matrix_is_composed (props : GradientProperties)
    (bbox : NonZeroRect) (acc : Transform) (c : Context) :
    ∃ rest sh,
      ((create_shading_pattern props bbox acc c).2).emitted =
        rest ++ [(c.nextRef, PdfObject.shadingPattern sh
          (Transform.concat acc (Transform.concat
            (if props.units = Units.objectBoundingBox then Transform.from_bbox bbox
             else Transform.default) props.transform)))] ∧
      (∀ p : Point,
        (Transform.concat acc (Transform.concat
          (if props.units = Units.objectBoundingBox then Transform.from_bbox bbox
           else Transform.default) props.transform)).mapPoint p =
        acc.mapPoint
          (((if props.units = Units.objectBoundingBox then Transform.from_bbox bbox
             else Transform.default)).mapPoint (props.transform.mapPoint p))) := by
  refine ⟨(get_function props.stops
      (if props.stops.any (fun s => decide (s.opacity < 1)) then
        (get_soft_mask props bbox { c with nextRef := c.nextRef + 1 }).2
       else { c with nextRef := c.nextRef + 1 }) false).2.emitted,
    ⟨props.shadingType, ColorSpaceSel.srgb,
      (get_function props.stops
        (if props.stops.any (fun s => decide (s.opacity < 1)) then
          (get_soft_mask props bbox { c with nextRef := c.nextRef + 1 }).2
         else { c with nextRef := c.nextRef + 1 }) false).1,
      props.coords, [true, true]⟩, ?_, ?_⟩
  · unfold create_shading_pattern
    cases hc : props.stops.any (fun s => decide (s.opacity < 1)) <;>
      simp [hc, Context.allocRef, Context.emit, Context.addPattern,
        Transform.pre_concat, Transform.concat_assoc]
  · intro p
    simp [Transform.concat_mapPoint]

/-- C10: the two path-rendering code paths map identical segment sequences to
identical geometry-operator sequences: `render::path::draw_path` and
`write::path::draw_path` are extensionally equal. -/
theorem draw_path_code_paths_agree (segs : List PathSegment) :
    Render.draw_path segs = WritePath.draw_path segs := by
  induction segs with
  | nil => rfl
  | cons s t ih =>
    cases s <;> simp [Render.draw_path, WritePath.draw_path] at ih ⊢

/-- C7: the terminal painting operator is exactly the one given by the 2×2
selection over {stroke present?} × {fill rule if fill present}, exactly one
terminal operator is emitted per path, and the two code paths' `finish_path`
implementations agree. -/
theorem finish_path_operator_selection :
    (∀ s f, (Render.finish_path s f).length = 1)
    ∧ (∀ s f, Render.finish_path s f = WritePath.finish_path s f)
    ∧ (∀ st p o, Render.finish_path (some st) (some ⟨p, FillRule.nonzero, o⟩) =
        [ContentOp.fillNonzeroAndStroke])
    ∧ (∀ st p o, Render.finish_path (some st) (some ⟨p, FillRule.evenodd, o⟩) =
        [ContentOp.fillEvenOddAndStroke])
    ∧ (∀ p o, Render.finish_path none (some ⟨p, FillRule.nonzero, o⟩) =
        [ContentOp.fillNonzero])
    ∧ (∀ p o, Render.finish_path none (some ⟨p, FillRule.evenodd, o⟩) =
        [ContentOp.fillEvenOdd])
    ∧ (∀ st, Render.finish_path (some st) none = [ContentOp.strokePaint])
    ∧ (Render.finish_path none none = [ContentOp.endPath]) := by
  refine ⟨?_, ?_, fun _ _ _ => rfl, fun _ _ _ => rfl, fun _ _ => rfl, fun _ _ => rfl,
    fun _ => rfl, rfl⟩
  · intro s f
    rcases s with _ | st <;> rcases f with _ | ⟨p, r, o⟩ <;> first
      | rfl
      | cases r <;> rfl
  · intro s f
    rcases s with _ | st <;> rcases f with _ | ⟨p, r, o⟩ <;> first
      | rfl
      | cases r <;> rfl

/-- the soft-mask component returned by `create_shading_pattern` is governed by
the `any (opacity < 1)` test on the stops. -/
theorem create_shading_pattern_mask (props : GradientProperties)
    (bbox : NonZeroRect) (acc : Transform) (c : Context) :
    (create_shading_pattern props bbox acc c).1.2 =
      if props.stops.any (fun s => decide (s.opacity < 1)) then
        some (get_soft_mask props bbox { c with nextRef := c.nextRef + 1 }).1
      else
        none := by
  unfold create_shading_pattern
  cases hc : props.stops.any (fun s => decide (s.opacity < 1)) <;>
    simp [hc, Context.allocRef, Context.emit, Context.addPattern]

/-- C2: `create_shading_pattern` returns no soft-mask name exactly when every
stop's opacity equals 1, and returns some soft-mask name exactly when at least
one stop's opacity is strictly below 1 (the hypothesis records that stop
opacities are `NormalizedF32` values, hence at most 1). -/
theorem soft_mask_iff_partial_opacity (props : GradientProperties)
    (bbox : NonZeroRect) (acc : Transform) (c : Context)
    (h : ∀ s ∈ props.stops, s.opacity ≤ 1) :
    ((create_shading_pattern props bbox acc c).1.2 = none ↔
      ∀ s ∈ props.stops, s.opacity = 1)
    ∧ (((create_shading_pattern props bbox acc c).1.2).isSome = true ↔
      ∃ s ∈ props.stops, s.opacity < 1) := by
  rw [create_shading_pattern_mask]
  cases hc : props.stops.any (fun s => decide (s.opacity < 1))
  · simp only [List.any_eq_false, decide_eq_true_eq] at hc
    constructor
    · constructor
      · intro _ s hs
        exact le_antisymm (h s hs) (not_lt.mp (hc s hs))
      · intro _
        simp
    · constructor
      · intro hz
        simp at hz
      · rintro ⟨s, hs, hlt⟩
        exact absurd hlt (hc s hs)
  · simp only [List.any_eq_true, decide_eq_true_eq] at hc
    obtain ⟨s, hs, hlt⟩ := hc
    constructor
    · constructor
      · intro hnone
        simp at hnone
      · intro hall
        exact absurd hlt (by rw [hall s hs]; exact lt_irrefl 1)
    · constructor
      · intro _
        exact ⟨s, hs, hlt⟩
      · intro _
        simp

/-- witness for C2 at a concrete two-stop gradient with a transparent stop. -/
theorem soft_mask_iff_partial_opacity_witness :
    (∀ s ∈ [(⟨0, ⟨255, 0, 0⟩, 1⟩ : UStop), ⟨1, ⟨0, 0, 255⟩, 0⟩], s.opacity ≤ 1)
    ∧ ((create_shading_pattern
        ⟨[0, 0, 1, 0], ShadingKind.axial,
          [⟨0, ⟨255, 0, 0⟩, 1⟩, ⟨1, ⟨0, 0, 255⟩, 0⟩],
          Transform.default, Units.userSpaceOnUse⟩
        ⟨0, 0, 1, 1⟩ Transform.default
        ⟨0, ⟨[[]], 0⟩, ⟨Transform.default, []⟩, ⟨0, 0, 1, 1⟩, []⟩).1.2 = none ↔
      ∀ s ∈ [(⟨0, ⟨255, 0, 0⟩, 1⟩ : UStop), ⟨1, ⟨0, 0, 255⟩, 0⟩], s.opacity = 1) := by
  constructor
  · decide
  · exact (soft_mask_iff_partial_opacity
      ⟨[0, 0, 1, 0], ShadingKind.axial,
        [⟨0, ⟨255, 0, 0⟩, 1⟩, ⟨1, ⟨0, 0, 255⟩, 0⟩],
        Transform.default, Units.userSpaceOnUse⟩
      ⟨0, 0, 1, 1⟩ Transform.default
      ⟨0, ⟨[[]], 0⟩, ⟨Transform.default, []⟩, ⟨0, 0, 1, 1⟩, []⟩ (by decide)).1

/-- C5 counterexample: `render::path::set_stroke` applied to a stroke painted
with a linear gradient (a non-solid-color paint) completes successfully with
the style operators only — it silently drops the stroke paint instead of
signalling an unsupported operation, refuting the claim as stated. -/
theorem stroke_gradient_silently_dropped :
    Render.set_stroke
        ⟨UPaint.linearGradient, 1, 4, LineCap.butt, LineJoin.miter, none, 0, 1⟩ =
      some [ContentOp.setLineWidth 1, ContentOp.setMiterLimit 4,
        ContentOp.setLineCap LineCap.butt, ContentOp.setLineJoin LineJoin.miter] := by
  rfl

/-- C5 amended: a stroke painted with a tiling pattern signals an explicit
unsupported-operation failure in both path renderers; in the write path
renderer every non-solid-color stroke paint signals the failure; but the
render path renderer silently drops gradient stroke paints, completing
successfully without emitting any stroke-color operator. -/
theorem stroke_paint_unsupported_amended (s : UStroke) :
    (∀ p, s.paint = UPaint.pattern p →
      Render.set_stroke s = none ∧ WritePath.set_stroke s = none)
    ∧ ((∀ cl, s.paint ≠ UPaint.color cl) → WritePath.set_stroke s = none)
    ∧ ((s.paint = UPaint.linearGradient ∨ s.paint = UPaint.radialGradient) →
        ∃ ops, Render.set_stroke s = some ops ∧
          ∀ cols, ContentOp.setStrokeColor cols ∉ ops) := by
  refine ⟨?_, ?_, ?_⟩
  · intro p hp
    constructor <;> · simp [Render.set_stroke, WritePath.set_stroke, hp]
  · intro hncl
    rcases hpaint : s.paint with cl | _ | _ | p
    · exact absurd hpaint (hncl cl)
    all_goals simp [WritePath.set_stroke, hpaint]
  · intro hg
    refine ⟨[ContentOp.setLineWidth s.width, ContentOp.setMiterLimit s.miterlimit,
      ContentOp.setLineCap s.linecap, ContentOp.setLineJoin s.linejoin] ++
      (match s.dasharray with
        | some dasharray => [ContentOp.setDashPattern dasharray s.dashoffset]
        | none => []), ?_, ?_⟩
    · rcases hg with hp | hp <;> simp [Render.set_stroke, hp]
    · intro cols
      rcases s.dasharray with _ | arr <;> simp

/-- witness for C5 (amended) at a concrete pattern-painted stroke. -/
theorem stroke_paint_unsupported_amended_witness :
    Render.set_stroke
        ⟨UPaint.pattern ⟨PNodeKind.group, Transform.default, none, ⟨0, 0, 1, 1⟩⟩,
          1, 4, LineCap.butt, LineJoin.miter, none, 0, 1⟩ = none
    ∧ WritePath.set_stroke
        ⟨UPaint.pattern ⟨PNodeKind.group, Transform.default, none, ⟨0, 0, 1, 1⟩⟩,
          1, 4, LineCap.butt, LineJoin.miter, none, 0, 1⟩ = none :=
  (stroke_paint_unsupported_amended
      ⟨UPaint.pattern ⟨PNodeKind.group, Transform.default, none, ⟨0, 0, 1, 1⟩⟩,
        1, 4, LineCap.butt, LineJoin.miter, none, 0, 1⟩).1
    ⟨PNodeKind.group, Transform.default, none, ⟨0, 0, 1, 1⟩⟩ rfl

/-- C6: at a concrete visible path with solid fill and stroke, the render code
path selects the sRGB color space for fill and stroke right after save-state
and the transform, while the write code path (contradicting its own
`TODO: Change to SRGB` comment and the specified target behavior) selects
DeviceRGB for both. -/
theorem color_space_selection_divergence :
    (WritePath.render
        ⟨true, Transform.default,
          some ⟨UPaint.color ⟨0, 0, 0⟩, 1, 4, LineCap.butt, LineJoin.miter, none, 0, 1⟩,
          some ⟨UPaint.color ⟨255, 0, 0⟩, FillRule.nonzero, 1⟩,
          [PathSegment.moveTo 0 0, PathSegment.lineTo 1 0]⟩).map
        (fun l => l.take 4) =
      some [ContentOp.saveState, ContentOp.transformOp Transform.default,
        ContentOp.setFillColorSpace ColorSpaceSel.deviceRgb,
        ContentOp.setStrokeColorSpace ColorSpaceSel.deviceRgb]
    ∧ (Render.render
        ⟨true, Transform.default,
          some ⟨UPaint.color ⟨0, 0, 0⟩, 1, 4, LineCap.butt, LineJoin.miter, none, 0, 1⟩,
          some ⟨UPaint.color ⟨255, 0, 0⟩, FillRule.nonzero, 1⟩,
          [PathSegment.moveTo 0 0, PathSegment.lineTo 1 0]⟩
        (fun c => (0, c))
        ⟨0, ⟨[[]], 0⟩, ⟨Transform.default, []⟩, ⟨0, 0, 1, 1⟩, []⟩).map
        (fun r => r.1.take 4) =
      some [ContentOp.saveState, ContentOp.transformOp Transform.default,
        ContentOp.setFillColorSpace ColorSpaceSel.srgb,
        ContentOp.setStrokeColorSpace ColorSpaceSel.srgb] := by
  constructor
  · rfl
  · norm_num [Render.render, Render.set_stroke, Render.set_fill, Render.draw_path,
      Render.finish_path, ContextFrame.push, ContextFrame.append_transform,
      Transform.append, Transform.concat, Transform.default, colorToArray,
      Context.addOpacity, Context.allocRef]

theorem refSeq_succ (base len : ℕ) :
    refSeq base (len + 1) = base :: refSeq (base + 1) len := by
  simp only [refSeq, List.range_succ_eq_map, List.map_cons, List.map_map, Nat.add_zero]
  congr 1
  apply List.map_congr_left
  intro a _
  simp only [Function.comp_apply]
  omega

/-- closed form of the stitching loop: references are consecutive from the
current allocator value, raw bounds are the second offsets of the windows,
encode is [0,1] per window, and one exponential object is written per window. -/
theorem stitchWindows_spec {n : ℕ} (ws : List (Stop n × Stop n)) : ∀ c : Context,
    stitchWindows ws c =
      (refSeq c.nextRef ws.length, ws.map (fun w => w.2.offset),
       (List.replicate ws.length ([0, 1] : List ℚ)).flatten,
       { c with nextRef := c.nextRef + ws.length,
                emitted := c.emitted ++ expEmits c.nextRef ws }) := by
  induction ws with
  | nil =>
    intro c
    simp [stitchWindows, refSeq, expEmits]
  | cons w ws ih =>
    intro c
    simp only [stitchWindows, exponential_function, Context.allocRef, Context.emit]
    rw [ih]
    simp only [List.length_cons, refSeq_succ, List.map_cons, List.replicate_succ,
      List.flatten_cons, expEmits, expObj, List.cons_append, List.append_assoc,
      List.nil_append, Prod.mk.injEq, Context.mk.injEq]
    repeat' apply And.intro
    all_goals first | omega | simp

/-- closed form of `stitching_function`. -/
theorem stitching_function_spec {n : ℕ} (stops : List (Stop n)) (c : Context) :
    stitching_function stops c =
      (c.nextRef,
       { c with nextRef := c.nextRef + 1 + (stops.zip stops.tail).length,
                emitted := c.emitted ++ expEmits (c.nextRef + 1) (stops.zip stops.tail) ++
                  [(c.nextRef, PdfObject.stitchingFn [0, 1] (get_function_range n)
                    (refSeq (c.nextRef + 1) (stops.zip stops.tail).length)
                    (((stops.zip stops.tail).map (fun w => w.2.offset)).dropLast)
                    ((List.replicate (stops.zip stops.tail).length
                      ([0, 1] : List ℚ)).flatten))] }) := by
  simp only [stitching_function, Context.allocRef, Context.emit]
  rw [stitchWindows_spec]

theorem expEmits_eq_zip {n : ℕ} (ws : List (Stop n × Stop n)) : ∀ base : ℕ,
    expEmits base ws =
      ((refSeq base ws.length).zip ws).map (fun rp => (rp.1, expObj rp.2)) := by
  induction ws with
  | nil =>
    intro base
    rfl
  | cons w ws ih =>
    intro base
    simp only [expEmits, List.length_cons, refSeq_succ, List.zip_cons_cons,
      List.map_cons, ih]

/-- `function` dispatches to `stitching_function` whenever the stop count is
not exactly 2. -/
theorem function_ne_two {n : ℕ} (stops : List (Stop n)) (c : Context)
    (h : stops.length ≠ 2) :
    function stops c = stitching_function stops c := by
  rcases stops with _ | ⟨a, _ | ⟨b, _ | ⟨d, t⟩⟩⟩
  · rfl
  · rfl
  · exact absurd rfl h
  · rfl

/-- the function builder only allocates references and writes objects: it
never touches the resource scopes. -/
theorem function_deferrer {n : ℕ} (stops : List (Stop n)) (c : Context) :
    (function stops c).2.deferrer = c.deferrer := by
  rcases stops with _ | ⟨a, _ | ⟨b, _ | ⟨d, u⟩⟩⟩
  · rw [function_ne_two _ _ (by simp), stitching_function_spec]
  · rw [function_ne_two _ _ (by simp), stitching_function_spec]
  · simp [function, exponential_function, Context.allocRef, Context.emit]
  · rw [function_ne_two _ _ (by simp), stitching_function_spec]

/-- `get_function` never touches the resource scopes. -/
theorem get_function_deferrer (stops : List UStop) (c : Context) (u : Bool) :
    (get_function stops c u).2.deferrer = c.deferrer := by
  unfold get_function
  cases u <;> simp [function_deferrer]

/-- the function builder preserves the drawing rectangle. -/
theorem function_rect {n : ℕ} (stops : List (Stop n)) (c : Context) :
    (function stops c).2.rect = c.rect := by
  rcases stops with _ | ⟨a, _ | ⟨b, _ | ⟨d, u⟩⟩⟩
  · rw [function_ne_two _ _ (by simp), stitching_function_spec]
  · rw [function_ne_two _ _ (by simp), stitching_function_spec]
  · simp [function, exponential_function, Context.allocRef, Context.emit]
  · rw [function_ne_two _ _ (by simp), stitching_function_spec]

/-- `get_function` preserves the drawing rectangle. -/
theorem get_function_rect (stops : List UStop) (c : Context) (u : Bool) :
    (get_function stops c u).2.rect = c.rect := by
  unfold get_function
  cases u <;> simp [function_rect]

/-- the single resource-scope push in `get_soft_mask` is matched by the single
pop before it returns: the scope stack regains its original shape (only the
enclosing innermost scope gains the graphics-state registration made after the
pop), and the resource dictionary written at the pop — carried by the form
XObject — holds exactly the one name registered inside the pushed scope. -/
theorem get_soft_mask_scope_balance (props : GradientProperties) (bbox : NonZeroRect)
    (c : Context) :
    ∃ gsr : ℕ,
      (get_soft_mask props bbox c).2.deferrer.scopes =
        c.deferrer.scopes.modifyHead
          (fun s => s ++ [⟨ResKind.graphicsState, c.deferrer.nextName + 1, gsr⟩])
      ∧ (get_soft_mask props bbox c).2.deferrer.scopes.length = c.deferrer.scopes.length
      ∧ ((c.nextRef, PdfObject.formXObject
          [ContentOp.transformOp (props.transform.pre_concat
            (if props.units = Units.objectBoundingBox then Transform.from_bbox bbox
             else Transform.default)),
           ContentOp.shadingOp c.deferrer.nextName]
          [⟨ResKind.shading, c.deferrer.nextName, c.nextRef + 1⟩] true c.rect) ∈
        (get_soft_mask props bbox c).2.emitted) := by
  rcases hgf : get_function props.stops
      (((c.pushScope.allocRef).2.allocRef).2.addShading
        ((c.pushScope.allocRef).2.allocRef).1).2 true with ⟨fref, c4⟩
  have hd : c4.deferrer =
      { scopes := [⟨ResKind.shading, c.deferrer.nextName, c.nextRef + 1⟩] ::
          c.deferrer.scopes,
        nextName := c.deferrer.nextName + 1 } := by
    have hpres := get_function_deferrer props.stops
      (((c.pushScope.allocRef).2.allocRef).2.addShading
        ((c.pushScope.allocRef).2.allocRef).1).2 true
    rw [hgf] at hpres
    simpa [Context.pushScope, Deferrer.push, Context.allocRef, Context.addShading,
      Deferrer.add, List.modifyHead] using hpres
  have hr : c4.rect = c.rect := by
    have hpres := get_function_rect props.stops
      (((c.pushScope.allocRef).2.allocRef).2.addShading
        ((c.pushScope.allocRef).2.allocRef).1).2 true
    rw [hgf] at hpres
    simpa [Context.pushScope, Deferrer.push, Context.allocRef, Context.addShading,
      Deferrer.add, List.modifyHead] using hpres
  simp only [Context.pushScope, Deferrer.push, Context.allocRef, Context.addShading,
    Deferrer.add, List.modifyHead] at hgf
  unfold get_soft_mask
  simp only [Context.pushScope, Deferrer.push, Context.allocRef, Context.addShading,
    Deferrer.add, List.modifyHead, Context.popScope, Deferrer.pop, Context.emit,
    Context.addGraphicsState]
  rw [hgf]
  refine ⟨c4.nextRef, ?_, ?_, ?_⟩
  · simp [hd]
  · simp only [hd]
    cases c.deferrer.scopes <;> simp
  · simp [hd, hr, List.mem_append]

/-- the tile-content frame reset touches only the transform frame, never the
resource scopes. -/
theorem create_pattern_inner_deferrer (p : UPattern) (x : Context) :
    (Render.create_pattern_inner p x).deferrer = x.deferrer := by
  unfold Render.create_pattern_inner
  cases p.view_box_transform <;> rfl

/-- the single resource-scope push in `create_pattern` is matched by the single
pop before it returns, for every tile renderer that itself restores the scope
stack shape (the hypothesis `hrc`): the caller's scope stack regains its shape
(its innermost scope gaining only the pattern registration made before the
push), and the resource dictionary written at the pop — carried by the tiling
pattern — is exactly the content of the pushed scope at pop time, i.e.
everything the tile renderer registered inside it. -/
theorem create_pattern_scope_balance (t : Transform) (vbt : Option Transform)
    (rect : NonZeroRect) (rc : Context → ℕ × Context) (c : Context)
    (hrc : ∀ cc, ∃ added, (rc cc).2.deferrer.scopes =
      (cc.deferrer.scopes.headD [] ++ added) :: cc.deferrer.scopes.tail) :
    ∃ name c2,
      Render.create_pattern ⟨PNodeKind.group, t, vbt, rect⟩ rc c = some (name, c2)
      ∧ c2.deferrer.scopes =
          c.deferrer.scopes.modifyHead
            (fun s => s ++ [⟨ResKind.pattern, c.deferrer.nextName, c.nextRef⟩])
      ∧ c2.deferrer.scopes.length = c.deferrer.scopes.length
      ∧ ∃ content bb M xs ys,
          (c.nextRef, PdfObject.tilingPattern content
            ((rc (Render.create_pattern_inner ⟨PNodeKind.group, t, vbt, rect⟩
              ((c.addPatternAlloc).2.pushScope))).2.deferrer.scopes.headD [])
            bb M xs ys) ∈ c2.emitted := by
  rcases hrc0 : rc (Render.create_pattern_inner ⟨PNodeKind.group, t, vbt, rect⟩
      ((c.addPatternAlloc).2.pushScope)) with ⟨xn, cc⟩
  obtain ⟨added, hsc⟩ := hrc (Render.create_pattern_inner ⟨PNodeKind.group, t, vbt, rect⟩
      ((c.addPatternAlloc).2.pushScope))
  rw [hrc0] at hsc
  simp only [create_pattern_inner_deferrer, Context.addPatternAlloc, Context.allocRef,
    Context.pushScope, Deferrer.push, Deferrer.add, List.headD_cons, List.tail_cons,
    List.nil_append] at hsc
  simp only [Context.addPatternAlloc, Context.allocRef, Context.pushScope, Deferrer.push,
    Deferrer.add] at hrc0
  unfold Render.create_pattern
  simp only [Context.addPatternAlloc, Context.allocRef, Context.pushScope, Deferrer.push,
    Deferrer.add, Context.popScope, Deferrer.pop, Context.emit, Transform.append]
  rw [hrc0]
  refine ⟨c.deferrer.nextName, _, rfl, ?_, ?_, ?_⟩
  · simp [hsc]
  · simp only [hsc]
    simp [List.length_modifyHead]
  · refine ⟨[ContentOp.xObjectOp xn], asPdfRect rect, c.frame.current.concat t,
      (asPdfRect rect).x2 - (asPdfRect rect).x1,
      (asPdfRect rect).y2 - (asPdfRect rect).y1, ?_⟩
    simp [List.mem_append]

/-- C8: in both `get_soft_mask` and `create_pattern`, the one resource-scope
push is matched by exactly one pop before control returns (the scope stack
regains its length and shape, its innermost scope gaining only the
registration the function makes outside the pushed scope), and every resource
name registered inside the pushed scope is written into the resource
dictionary supplied to that matching pop (carried by the form XObject and the
tiling pattern respectively). -/
theorem resource_scope_discipline :
    (∀ (props : GradientProperties) (bbox : NonZeroRect) (c : Context),
      ∃ gsr : ℕ,
        (get_soft_mask props bbox c).2.deferrer.scopes =
          c.deferrer.scopes.modifyHead
            (fun s => s ++ [⟨ResKind.graphicsState, c.deferrer.nextName + 1, gsr⟩])
        ∧ (get_soft_mask props bbox c).2.deferrer.scopes.length =
            c.deferrer.scopes.length
        ∧ ((c.nextRef, PdfObject.formXObject
            [ContentOp.transformOp (props.transform.pre_concat
              (if props.units = Units.objectBoundingBox then Transform.from_bbox bbox
               else Transform.default)),
             ContentOp.shadingOp c.deferrer.nextName]
            [⟨ResKind.shading, c.deferrer.nextName, c.nextRef + 1⟩] true c.rect) ∈
          (get_soft_mask props bbox c).2.emitted))
    ∧ (∀ (t : Transform) (vbt : Option Transform) (rect : NonZeroRect)
        (rc : Context → ℕ × Context) (c : Context),
        (∀ cc, ∃ added, (rc cc).2.deferrer.scopes =
          (cc.deferrer.scopes.headD [] ++ added) :: cc.deferrer.scopes.tail) →
        ∃ name c2,
          Render.create_pattern ⟨PNodeKind.group, t, vbt, rect⟩ rc c = some (name, c2)
          ∧ c2.deferrer.scopes =
              c.deferrer.scopes.modifyHead
                (fun s => s ++ [⟨ResKind.pattern, c.deferrer.nextName, c.nextRef⟩])
          ∧ c2.deferrer.scopes.length = c.deferrer.scopes.length
          ∧ ∃ content bb M xs ys,
              (c.nextRef, PdfObject.tilingPattern content
                ((rc (Render.create_pattern_inner ⟨PNodeKind.group, t, vbt, rect⟩
                  ((c.addPatternAlloc).2.pushScope))).2.deferrer.scopes.headD [])
                bb M xs ys) ∈ c2.emitted) :=
  ⟨get_soft_mask_scope_balance, create_pattern_scope_balance⟩

/-- witness for C8 at a concrete pattern compilation whose tile renderer keeps
the scope stack's shape. -/
theorem resource_scope_discipline_witness :
    ∃ name c2,
      Render.create_pattern ⟨PNodeKind.group, Transform.default, none, ⟨0, 0, 1, 1⟩⟩
          (fun cc => (7, { cc with deferrer :=
            ⟨cc.deferrer.scopes.headD [] :: cc.deferrer.scopes.tail,
              cc.deferrer.nextName⟩ }))
          ⟨0, ⟨[[]], 0⟩, ⟨Transform.default, []⟩, ⟨0, 0, 1, 1⟩, []⟩ = some (name, c2)
      ∧ c2.deferrer.scopes =
          (([[]] : List (List ResEntry)).modifyHead
            (fun s => s ++ [⟨ResKind.pattern, 0, 0⟩]))
      ∧ c2.deferrer.scopes.length = ([[]] : List (List ResEntry)).length
      ∧ ∃ content bb M xs ys,
          ((0 : ℕ), PdfObject.tilingPattern content
            (((fun cc : Context => ((7 : ℕ), { cc with deferrer :=
              ⟨cc.deferrer.scopes.headD [] :: cc.deferrer.scopes.tail,
                cc.deferrer.nextName⟩ }))
              (Render.create_pattern_inner
                ⟨PNodeKind.group, Transform.default, none, ⟨0, 0, 1, 1⟩⟩
                (((⟨0, ⟨[[]], 0⟩, ⟨Transform.default, []⟩, ⟨0, 0, 1, 1⟩, []⟩ :
                  Context).addPatternAlloc).2.pushScope))).2.deferrer.scopes.headD [])
            bb M xs ys) ∈ c2.emitted :=
  resource_scope_discipline.2 Transform.default none ⟨0, 0, 1, 1⟩
    (fun cc => (7, { cc with deferrer :=
      ⟨cc.deferrer.scopes.headD [] :: cc.deferrer.scopes.tail,
        cc.deferrer.nextName⟩ }))
    ⟨0, ⟨[[]], 0⟩, ⟨Transform.default, []⟩, ⟨0, 0, 1, 1⟩, []⟩
    (fun cc => ⟨[], by simp⟩)

/-- C9: for a group-rooted tiling pattern, the emitted tiling pattern's
placement matrix is the parent coordinate transform (the frame's current
transform at the call site) composed with the pattern's own declared
transform, the x/y steps are the tile bounding box's width and height, and
the inner content frame handed to the tile renderer is independent of the
caller's transform (it is reset, not inherited). -/
theorem tiling_pattern_placement (t : Transform) (vbt : Option Transform)
    (rect : NonZeroRect) (rc : Context → ℕ × Context) (c : Context) :
    ∃ name c2 rest resources content,
      Render.create_pattern ⟨PNodeKind.group, t, vbt, rect⟩ rc c = some (name, c2)
      ∧ c2.emitted = rest ++ [(c.nextRef,
          PdfObject.tilingPattern content resources (asPdfRect rect)
            (Transform.concat c.frame.current t) rect.w rect.h)]
      ∧ (∀ ca cb : Context,
          (Render.create_pattern_inner ⟨PNodeKind.group, t, vbt, rect⟩ ca).frame.current =
          (Render.create_pattern_inner ⟨PNodeKind.group, t, vbt, rect⟩ cb).frame.current) := by
  rcases hrc : rc (Render.create_pattern_inner ⟨PNodeKind.group, t, vbt, rect⟩
      ((c.addPatternAlloc).2.pushScope)) with ⟨xn, cc⟩
  simp only [Context.addPatternAlloc, Context.allocRef, Context.pushScope, Deferrer.push,
    Deferrer.add] at hrc
  unfold Render.create_pattern
  simp only [Context.addPatternAlloc, Context.allocRef, Context.pushScope, Deferrer.push,
    Deferrer.add, Context.popScope, Deferrer.pop, Context.emit, Transform.append]
  rw [hrc]
  refine ⟨c.deferrer.nextName, _, cc.emitted, cc.deferrer.scopes.headD [],
    [ContentOp.xObjectOp xn], rfl, ?_, ?_⟩
  · show cc.emitted ++ [(c.nextRef, PdfObject.tilingPattern [ContentOp.xObjectOp xn]
        (cc.deferrer.scopes.headD []) (asPdfRect rect) (c.frame.current.concat t)
        ((asPdfRect rect).x2 - (asPdfRect rect).x1)
        ((asPdfRect rect).y2 - (asPdfRect rect).y1))] =
      cc.emitted ++ [(c.nextRef, PdfObject.tilingPattern [ContentOp.xObjectOp xn]
        (cc.deferrer.scopes.headD []) (asPdfRect rect) (c.frame.current.concat t)
        rect.w rect.h)]
    rw [show (asPdfRect rect).x2 - (asPdfRect rect).x1 = rect.w from by
        simp [asPdfRect],
      show (asPdfRect rect).y2 - (asPdfRect rect).y1 = rect.h from by
        simp [asPdfRect]]
  · intro ca cb
    cases vbt <;> rfl

/-- stop padding leaves an already-normalized stop sequence unchanged. -/
theorem padStops_noop (stops : List UStop) (first last : UStop)
    (hf : stops.head? = some first) (hl : stops.getLast? = some last)
    (h0 : first.offset = 0) (h1 : last.offset = 1) :
    padStops stops = stops := by
  cases stops with
  | nil => cases hf
  | cons s t =>
    rw [List.head?_cons, Option.some.injEq] at hf
    subst hf
    unfold padStops
    simp only [List.head?_cons]
    rw [if_neg (by simp [h0])]
    rw [hl]
    simp [h1]

/-- stop padding only prepends a zero-offset duplicate of the first stop and/or
appends a one-offset duplicate of the last stop. -/
theorem padStops_decomposition (stops : List UStop) (first last : UStop)
    (hf : stops.head? = some first) (hl : stops.getLast? = some last) :
    padStops stops =
      (if first.offset ≠ 0 then [{ first with offset := 0 }] else []) ++ stops ++
      (if last.offset ≠ 1 then [{ last with offset := 1 }] else []) := by
  cases stops with
  | nil => cases hf
  | cons s t =>
    rw [List.head?_cons, Option.some.injEq] at hf
    subst hf
    unfold padStops
    simp only [List.head?_cons]
    by_cases hz : s.offset = 0
    · rw [if_neg (by simp [hz]), if_neg (by simp [hz])]
      simp only [List.nil_append]
      rw [hl]
      by_cases ho : last.offset = 1
      · simp [ho]
      · simp [ho]
    · rw [if_pos hz, if_pos hz]
      simp only [List.getLast?_cons_cons, List.singleton_append]
      rw [hl]
      by_cases ho : last.offset = 1
      · simp [ho]
      · simp [ho]

/-- stop padding is idempotent. -/
theorem padStops_idem (stops : List UStop) :
    padStops (padStops stops) = padStops stops := by
  cases stops with
  | nil => rfl
  | cons s t =>
    obtain ⟨last, hl⟩ : ∃ l, (s :: t).getLast? = some l := by
      cases h : (s :: t).getLast? with
      | none => exact absurd (List.getLast?_eq_none_iff.mp h) (List.cons_ne_nil s t)
      | some l => exact ⟨l, rfl⟩
    rw [padStops_decomposition (s :: t) s last List.head?_cons hl]
    by_cases hz : s.offset = 0 <;> by_cases ho : last.offset = 1
    · rw [if_neg (by simp [hz]), if_neg (by simp [ho]), List.nil_append, List.append_nil]
      exact padStops_noop (s :: t) s last List.head?_cons hl hz ho
    · rw [if_neg (by simp [hz]), if_pos ho, List.nil_append]
      refine padStops_noop _ s { last with offset := 1 } ?_ ?_ hz rfl
      · cases t <;> rfl
      · rw [List.getLast?_concat]
    · rw [if_pos hz, if_neg (by simp [ho]), List.append_nil, List.singleton_append]
      refine padStops_noop _ { s with offset := 0 } last rfl ?_ rfl ho
      rw [List.getLast?_cons_cons]
      exact hl
    · rw [if_pos hz, if_pos ho, List.singleton_append]
      refine padStops_noop _ { s with offset := 0 } { last with offset := 1 } rfl ?_ rfl rfl
      rw [show ({ s with offset := 0 } : UStop) :: s :: t ++ [{ last with offset := 1 }] =
          ({ s with offset := 0 } :: s :: t) ++ [{ last with offset := 1 }] from rfl,
        List.getLast?_concat]


/-- C4: a padded stop sequence of length exactly 2 produces exactly one
exponential interpolation function (C0 = first stop's channels, C1 = second
stop's channels, domain [0,1], exponent N = 1); a sequence of length k > 2
produces exactly k−1 exponential sub-functions stitched together with exactly
k−2 interior bounds (the offsets of the interior stops) and encode entries
[0,1] per sub-function; the same algorithm applies for every channel count
(in particular 1-channel and 3-channel stops). -/
theorem interpolation_function_dispatch :
    (∀ (n : ℕ) (a b : Stop n) (c : Context),
      (function [a, b] c).2.emitted =
        c.emitted ++ [((function [a, b] c).1, expObj (a, b))])
    ∧ (∀ (n : ℕ) (stops : List (Stop n)) (c : Context), 2 < stops.length →
      ∃ refs : List ℕ,
        refs.length = stops.length - 1
        ∧ (function stops c).2.emitted =
            c.emitted ++
              (refs.zip (stops.zip stops.tail)).map (fun rp => (rp.1, expObj rp.2)) ++
              [((function stops c).1,
                PdfObject.stitchingFn [0, 1] (get_function_range n) refs
                  (stops.tail.dropLast.map (fun s => s.offset))
                  ((List.replicate (stops.length - 1) ([0, 1] : List ℚ)).flatten))]
        ∧ stops.tail.dropLast.length = stops.length - 2) := by
  constructor
  · intro n a b c
    simp [function, exponential_function, Context.allocRef, Context.emit, expObj]
  · intro n stops c h
    have hne : stops.length ≠ 2 := by omega
    rw [function_ne_two stops c hne, stitching_function_spec]
    have htl : stops.tail.length = stops.length - 1 := List.length_tail stops
    have hsnd : (stops.zip stops.tail).map Prod.snd = stops.tail :=
      List.map_snd_zip _ _ (by omega)
    have hlen : (stops.zip stops.tail).length = stops.length - 1 := by
      simp only [List.length_zip, htl]
      omega
    refine ⟨refSeq (c.nextRef + 1) ((stops.zip stops.tail).length), ?_, ?_, ?_⟩
    · simp [refSeq, hlen]
    · rw [expEmits_eq_zip]
      have hbounds : ((stops.zip stops.tail).map (fun w => w.2.offset)).dropLast
          = stops.tail.dropLast.map (fun s => s.offset) := by
        have hm : (stops.zip stops.tail).map (fun w => w.2.offset)
            = ((stops.zip stops.tail).map Prod.snd).map (fun s => s.offset) := by
          simp [List.map_map]
        rw [hm, hsnd, List.map_dropLast]
      rw [hbounds, hlen]
    · simp only [List.length_dropLast, htl]
      omega

/-- witness for C4 at a concrete three-stop 1-channel sequence. -/
theorem interpolation_function_dispatch_witness :
    2 < ([⟨![1], 0⟩, ⟨![0], 1/2⟩, ⟨![1], 1⟩] : List (Stop 1)).length
    ∧ ∃ refs : List ℕ,
      refs.length = ([⟨![1], 0⟩, ⟨![0], 1/2⟩, ⟨![1], 1⟩] : List (Stop 1)).length - 1
      ∧ (function ([⟨![1], 0⟩, ⟨![0], 1/2⟩, ⟨![1], 1⟩] : List (Stop 1))
          ⟨0, ⟨[[]], 0⟩, ⟨Transform.default, []⟩, ⟨0, 0, 1, 1⟩, []⟩).2.emitted =
          [] ++
            (refs.zip (([⟨![1], 0⟩, ⟨![0], 1/2⟩, ⟨![1], 1⟩] : List (Stop 1)).zip
              ([⟨![1], 0⟩, ⟨![0], 1/2⟩, ⟨![1], 1⟩] : List (Stop 1)).tail)).map
              (fun rp => (rp.1, expObj rp.2)) ++
            [((function ([⟨![1], 0⟩, ⟨![0], 1/2⟩, ⟨![1], 1⟩] : List (Stop 1))
                ⟨0, ⟨[[]], 0⟩, ⟨Transform.default, []⟩, ⟨0, 0, 1, 1⟩, []⟩).1,
              PdfObject.stitchingFn [0, 1] (get_function_range 1) refs
                (([⟨![1], 0⟩, ⟨![0], 1/2⟩, ⟨![1], 1⟩] : List (Stop 1)).tail.dropLast.map
                  (fun s => s.offset))
                ((List.replicate (([⟨![1], 0⟩, ⟨![0], 1/2⟩, ⟨![1], 1⟩] :
                  List (Stop 1)).length - 1) ([0, 1] : List ℚ)).flatten))]
      ∧ ([⟨![1], 0⟩, ⟨![0], 1/2⟩, ⟨![1], 1⟩] : List (Stop 1)).tail.dropLast.length =
          ([⟨![1], 0⟩, ⟨![0], 1/2⟩, ⟨![1], 1⟩] : List (Stop 1)).length - 2 :=
  ⟨by decide,
    interpolation_function_dispatch.2 1 ([⟨![1], 0⟩, ⟨![0], 1/2⟩, ⟨![1], 1⟩] : List (Stop 1))
      ⟨0, ⟨[[]], 0⟩, ⟨Transform.default, []⟩, ⟨0, 0, 1, 1⟩, []⟩ (by decide)⟩

/-- C3: stop padding is a no-op on an already-normalized stop sequence, is
idempotent, and when it acts it only prepends a duplicate of the first stop
with offset forced to 0 and/or appends a duplicate of the last stop with
offset forced to 1, leaving all other stops unchanged. -/
theorem stop_padding_properties :
    (∀ (stops : List UStop) (first last : UStop), stops.head? = some first →
      stops.getLast? = some last → first.offset = 0 → last.offset = 1 →
      padStops stops = stops)
    ∧ (∀ stops : List UStop, padStops (padStops stops) = padStops stops)
    ∧ (∀ (stops : List UStop) (first last : UStop), stops.head? = some first →
      stops.getLast? = some last →
      padStops stops =
        (if first.offset ≠ 0 then [{ first with offset := 0 }] else []) ++ stops ++
        (if last.offset ≠ 1 then [{ last with offset := 1 }] else [])) :=
  ⟨padStops_noop, padStops_idem, padStops_decomposition⟩

/-- witness for C3 at concrete stop sequences: a normalized two-stop sequence
is unchanged, and an unnormalized one gains exactly the forced duplicates. -/
theorem stop_padding_properties_witness :
    padStops [⟨0, ⟨0, 0, 0⟩, 1⟩, ⟨1, ⟨255, 255, 255⟩, 1⟩] =
      [⟨0, ⟨0, 0, 0⟩, 1⟩, ⟨1, ⟨255, 255, 255⟩, 1⟩]
    ∧ padStops [(⟨0, ⟨0, 0, 0⟩, 1⟩ : UStop), ⟨1, ⟨255, 255, 255⟩, 1⟩] =
      [] ++ [⟨0, ⟨0, 0, 0⟩, 1⟩, ⟨1, ⟨255, 255, 255⟩, 1⟩] ++ [] :=
  ⟨stop_padding_properties.1 _ ⟨0, ⟨0, 0, 0⟩, 1⟩ ⟨1, ⟨255, 255, 255⟩, 1⟩ rfl rfl rfl rfl,
    by
      have h := stop_padding_properties.2.2
        [(⟨0, ⟨0, 0, 0⟩, 1⟩ : UStop), ⟨1, ⟨255, 255, 255⟩, 1⟩]
        ⟨0, ⟨0, 0, 0⟩, 1⟩ ⟨1, ⟨255, 255, 255⟩, 1⟩ rfl rfl
      simpa using h⟩

end Svg2pdf
